import Mathlib

/-!
# Verification of the fo-sdk webhook core

Shallow embedding of the fo-sdk webhook authentication core:
`verifyWebhook`, `signWebhookPayload`, `defineTool` and `createToolHandler`,
translated from the TypeScript sources (`src/webhook.ts`, `src/testing.ts`,
`src/defineTool.ts`).  JavaScript strings are modelled as lists of byte
values (`List Nat`, each entry < 256 for the data the code manipulates);
machine words inside SHA-256 are `Nat` reduced mod `2 ^ 32` explicitly.
External collaborators (the zod validator, `JSON.parse`, the ambient
process environment, the tool's `execute` body) are abstract parameters,
as the design treats them; the cryptographic primitive HMAC-SHA256 is
implemented in full so that all definitions are executable.
-/

/-- JavaScript strings, modelled as their byte sequences (the code only
manipulates ASCII data, where UTF-8 bytes and UTF-16 units coincide). -/
abbrev Str := List Nat

/-- Bytes of an ASCII Lean string literal, used to write concrete
protocol constants such as header names and error messages. -/
def strBytes (s : String) : Str := s.data.map Char.toNat

/-- Dot separator byte of the signed message. -/
def dotByte : Str := [46]

-- ── JavaScript primitive behaviour ──────────────────────────────────────

/-- JavaScript whitespace bytes skipped by `parseInt` (ASCII fragment). -/
def jsIsWs (c : Nat) : Bool := c = 32 || c = 9 || c = 10 || c = 11 || c = 12 || c = 13

/-- ASCII decimal digit test. -/
def isDigitByte (c : Nat) : Bool := 48 ≤ c && c ≤ 57

/-- Value of a big-endian digit-byte list. -/
def digitsVal (l : Str) : Nat := l.foldl (fun a c => 10 * a + (c - 48)) 0

/-- JavaScript `parseInt(s, 10)`: skip leading whitespace, read an optional
sign, then the longest prefix of decimal digits; `NaN` (here `none`) when
no digit follows.  Trailing garbage after the digits is ignored — this is
the behaviour `verifyWebhook` relies on. -/
def parseIntJS (s : Str) : Option Int :=
  let t := s.dropWhile jsIsWs
  let t2 := if t.headD 0 = 45 ∨ t.headD 0 = 43 then t.tail else t
  let ds := t2.takeWhile isDigitByte
  if ds.isEmpty then none
  else if t.headD 0 = 45 then some (-(digitsVal ds : Int))
  else some (digitsVal ds : Int)

/-- Little-endian decimal digits, with explicit fuel so that the
definition is structurally recursive and kernel-reducible. -/
def natDigitsF : Nat → Nat → List Nat
  | 0, _ => []
  | fuel + 1, n => if n = 0 then [] else n % 10 :: natDigitsF fuel (n / 10)

/-- Little-endian decimal digits of a number (empty for zero). -/
def natDigitsRev (n : Nat) : List Nat := natDigitsF n n

/-- JavaScript `Number.prototype.toString` for a non-negative integer,
as a byte string. -/
def natToStrBytes (n : Nat) : Str :=
  if n = 0 then [48] else (natDigitsRev n).reverse.map (· + 48)

-- ── SHA-256 (FIPS 180-4), on byte lists, words as Nat mod 2^32 ─────────

/-- Truncate to a 32-bit word. -/
def w32 (x : Nat) : Nat := x % 2 ^ 32

/-- 32-bit addition. -/
def add32 (a b : Nat) : Nat := (a + b) % 2 ^ 32

/-- Right rotation of a 32-bit word. -/
def rotr32 (x n : Nat) : Nat := (x / 2 ^ n + x % 2 ^ n * 2 ^ (32 - n)) % 2 ^ 32

/-- Logical right shift. -/
def shr32 (x n : Nat) : Nat := x / 2 ^ n

/-- SHA-256 round constants. -/
def sha256K : List Nat :=
  [1116352408, 1899447441, 3049323471, 3921009573, 961987163, 1508970993,
   2453635748, 2870763221, 3624381080, 310598401, 607225278, 1426881987,
   1925078388, 2162078206, 2614888103, 3248222580, 3835390401, 4022224774,
   264347078, 604807628, 770255983, 1249150122, 1555081692, 1996064986,
   2554220882, 2821834349, 2952996808, 3210313671, 3336571891, 3584528711,
   113926993, 338241895, 666307205, 773529912, 1294757372, 1396182291,
   1695183700, 1986661051, 2177026350, 2456956037, 2730485921, 2820302411,
   3259730800, 3345764771, 3516065817, 3600352804, 4094571909, 275423344,
   430227734, 506948616, 659060556, 883997877, 958139571, 1322822218,
   1537002063, 1747873779, 1955562222, 2024104815, 2227730452, 2361852424,
   2428436474, 2756734187, 3204031479, 3329325298]

/-- SHA-256 initial hash value. -/
def sha256H0 : List Nat :=
  [1779033703, 3144134277, 1013904242, 2773480762,
   1359893119, 2600822924, 528734635, 1541459225]

/-- Big-endian 32-bit word from four bytes. -/
def wordOfBytes (b0 b1 b2 b3 : Nat) : Nat := ((b0 * 256 + b1) * 256 + b2) * 256 + b3

/-- Split a 64-byte block into sixteen big-endian words. -/
def blockWords : List Nat → List Nat
  | b0 :: b1 :: b2 :: b3 :: rest => wordOfBytes b0 b1 b2 b3 :: blockWords rest
  | _ => []

/-- Message-schedule extension: grow the word list to 64 entries. -/
def schedExt (fuel : Nat) (ws : List Nat) : List Nat :=
  match fuel with
  | 0 => ws
  | fuel + 1 =>
      let n := ws.length
      let wm2 := ws.getD (n - 2) 0
      let wm7 := ws.getD (n - 7) 0
      let wm15 := ws.getD (n - 15) 0
      let wm16 := ws.getD (n - 16) 0
      let s0 := (Nat.xor (Nat.xor (rotr32 wm15 7) (rotr32 wm15 18)) (shr32 wm15 3))
      let s1 := (Nat.xor (Nat.xor (rotr32 wm2 17) (rotr32 wm2 19)) (shr32 wm2 10))
      schedExt fuel (ws ++ [(wm16 + s0 + wm7 + s1) % 2 ^ 32])

/-- Working state of the compression function. -/
structure Sha256State where
  a : Nat
  b : Nat
  c : Nat
  d : Nat
  e : Nat
  f : Nat
  g : Nat
  h : Nat

/-- One round of the SHA-256 compression function. -/
def sha256Round (st : Sha256State) (k w : Nat) : Sha256State :=
  let S1 := Nat.xor (Nat.xor (rotr32 st.e 6) (rotr32 st.e 11)) (rotr32 st.e 25)
  let ch := Nat.xor (Nat.land st.e st.f) (Nat.land (Nat.xor st.e (2 ^ 32 - 1)) st.g)
  let t1 := (st.h + S1 + ch + k + w) % 2 ^ 32
  let S0 := Nat.xor (Nat.xor (rotr32 st.a 2) (rotr32 st.a 13)) (rotr32 st.a 22)
  let mj := Nat.xor (Nat.xor (Nat.land st.a st.b) (Nat.land st.a st.c)) (Nat.land st.b st.c)
  let t2 := (S0 + mj) % 2 ^ 32
  ⟨(t1 + t2) % 2 ^ 32, st.a, st.b, st.c, (st.d + t1) % 2 ^ 32, st.e, st.f, st.g⟩

/-- Run the 64 compression rounds over paired constants and schedule words. -/
def sha256Rounds (st : Sha256State) : List (Nat × Nat) → Sha256State
  | [] => st
  | (k, w) :: rest => sha256Rounds (sha256Round st k w) rest

/-- Compress one 64-byte block into the running hash (eight words). -/
def sha256Compress (hs : List Nat) (block : List Nat) : List Nat :=
  let ws := schedExt 48 (blockWords block)
  let st0 : Sha256State :=
    ⟨hs.getD 0 0, hs.getD 1 0, hs.getD 2 0, hs.getD 3 0,
     hs.getD 4 0, hs.getD 5 0, hs.getD 6 0, hs.getD 7 0⟩
  let st := sha256Rounds st0 (sha256K.zip ws)
  [add32 (hs.getD 0 0) st.a, add32 (hs.getD 1 0) st.b,
   add32 (hs.getD 2 0) st.c, add32 (hs.getD 3 0) st.d,
   add32 (hs.getD 4 0) st.e, add32 (hs.getD 5 0) st.f,
   add32 (hs.getD 6 0) st.g, add32 (hs.getD 7 0) st.h]

/-- Big-endian length-8 byte encoding of the bit length. -/
def lenBytes64 (bits : Nat) : List Nat :=
  [bits / 2 ^ 56 % 256, bits / 2 ^ 48 % 256, bits / 2 ^ 40 % 256, bits / 2 ^ 32 % 256,
   bits / 2 ^ 24 % 256, bits / 2 ^ 16 % 256, bits / 2 ^ 8 % 256, bits % 256]

/-- SHA-256 padding: a 0x80 byte, zeros to 56 mod 64, then the bit length. -/
def sha256Pad (msg : Str) : Str :=
  let padLen := (64 - (msg.length + 9) % 64) % 64
  msg ++ [0x80] ++ List.replicate padLen 0 ++ lenBytes64 (8 * msg.length)

/-- Split a message into 64-byte blocks (fuel makes the recursion
structural and kernel-reducible; `chunks64` supplies enough fuel). -/
def chunks64F : Nat → Str → List Str
  | 0, _ => []
  | _, [] => []
  | fuel + 1, l => l.take 64 :: chunks64F fuel (l.drop 64)

/-- Split a message into 64-byte blocks. -/
def chunks64 (l : Str) : List Str := chunks64F l.length l

/-- Turn the eight final hash words into the 32-byte digest. -/
def wordsToBytes (ws : List Nat) : Str :=
  ws.flatMap fun w => [w / 2 ^ 24 % 256, w / 2 ^ 16 % 256, w / 2 ^ 8 % 256, w % 256]

/-- SHA-256 of a byte string. -/
def sha256 (msg : Str) : Str :=
  wordsToBytes ((chunks64 (sha256Pad msg)).foldl sha256Compress sha256H0)

/-- HMAC-SHA256 (RFC 2104), as `crypto.createHmac('sha256', secret)`. -/
def hmacSHA256 (secret msg : Str) : Str :=
  let key0 := if secret.length > 64 then sha256 secret else secret
  let key := key0 ++ List.replicate (64 - key0.length) 0
  let ipad := key.map (Nat.xor · 0x36)
  let opad := key.map (Nat.xor · 0x5c)
  sha256 (opad ++ sha256 (ipad ++ msg))

/-- Lower-case hex digit byte for a value below 16. -/
def hexDigitByte (d : Nat) : Nat := if d < 10 then 48 + d else 87 + d

/-- Lower-case hex encoding of a byte string, as `.digest('hex')`. -/
def hexOfBytes (bs : Str) : Str :=
  bs.flatMap fun b => [hexDigitByte (b / 16), hexDigitByte (b % 16)]

/-- Signature format: the string `"sha256="` followed by the hex HMAC digest. -/
def hmacHexSig (secret msg : Str) : Str :=
  strBytes "sha256=" ++ hexOfBytes (hmacSHA256 secret msg)

-- ── Webhook verification (src/webhook.ts) ──────────────────────────────

/-- A header value in a Node.js headers record: absent, a single string,
or an array of strings. -/
inductive HVal where
  | und : HVal
  | str (s : Str) : HVal
  | arr (l : List Str) : HVal

/-- A JS headers record: looking up an absent key yields `undefined`. -/
def Headers := Str → HVal

/-- Header lookup: `Array.isArray(val) ? val[0] : val`; an empty array's
first element is `undefined`. -/
def getHeader (headers : Headers) (name : Str) : Option Str :=
  match headers name with
  | .und => none
  | .str s => some s
  | .arr l => l.head?

/-- The distinct causes of `WebhookVerificationError` (one error class in
the source, distinguished by message). -/
inductive VerifyErr where
  | missingSignature
  | missingTimestamp
  | invalidTimestamp
  | staleOrFuture
  | invalidSignature
deriving DecidableEq

/-- The message carried by each `WebhookVerificationError`. -/
def VerifyErr.message : VerifyErr → Str
  | .missingSignature => strBytes "Missing x-fo-signature header"
  | .missingTimestamp => strBytes "Missing x-fo-timestamp header"
  | .invalidTimestamp => strBytes "Invalid x-fo-timestamp header"
  | .staleOrFuture =>
      strBytes "Webhook timestamp is too old or too far in the future. Check that your server clock is synchronized."
  | .invalidSignature => strBytes "Invalid webhook signature"

/-- Decidable equality for verification outcomes. -/
instance : DecidableEq (Except VerifyErr Unit)
  | .ok (), .ok () => isTrue rfl
  | .ok (), .error _ => isFalse (by simp)
  | .error _, .ok () => isFalse (by simp)
  | .error a, .error b =>
      if h : a = b then isTrue (by rw [h]) else isFalse (by simp [h])

/-- Model of `crypto.timingSafeEqual`: on equal-length buffers it decides bytewise
equality (its constant-time execution is a non-functional property). -/
def timingSafeEqual (a b : Str) : Bool := a == b

/-- Replay window constant from the source: 5 minutes in milliseconds. -/
def TIMESTAMP_TOLERANCE_MS : Int := 5 * 60 * 1000

/-- Header names used by the protocol. -/
def sigHeaderName : Str := strBytes "x-fo-signature"

/-- The timestamp header name. -/
def tsHeaderName : Str := strBytes "x-fo-timestamp"

/-- Function `verifyWebhook(body, headers, secret)` from `src/webhook.ts`, with the
ambient clock `Date.now()` passed explicitly as `now` (milliseconds).
JS truthiness: `!signature` holds for an absent header and for the empty
string alike.  The signed payload uses the raw header string, and the
final comparison is the source's
`expected.length !== received.length || !timingSafeEqual(...)`. -/
def verifyWebhook (body : Str) (headers : Headers) (secret : Str) (now : Nat) :
    Except VerifyErr Unit :=
  let signature := getHeader headers sigHeaderName
  let timestamp := getHeader headers tsHeaderName
  match signature with
  | none => .error .missingSignature
  | some sig =>
    if sig = [] then .error .missingSignature
    else
      match timestamp with
      | none => .error .missingTimestamp
      | some tsStr =>
        if tsStr = [] then .error .missingTimestamp
        else
          match parseIntJS tsStr with
          | none => .error .invalidTimestamp
          | some ts =>
            let ageMs : Int := (now : Int) - ts * 1000
            if ageMs > TIMESTAMP_TOLERANCE_MS ∨ ageMs < -60000 then
              .error .staleOrFuture
            else
              let payload := tsStr ++ dotByte ++ body
              let expected := strBytes "sha256=" ++ hexOfBytes (hmacSHA256 secret payload)
              let received := sig
              if expected.length ≠ received.length ∨ ¬ timingSafeEqual expected received then
                .error .invalidSignature
              else
                .ok ()

-- ── Signing (src/testing.ts, signWebhookPayload) ───────────────────────

/-- Result of `signWebhookPayload`. -/
structure SignedPayload where
  signature : Str
  timestamp : Str

/-- Function `signWebhookPayload(body, secret)` from `src/testing.ts`:
`timestamp = Math.floor(Date.now() / 1000).toString()` and
`signature = "sha256=" + hex(HMAC-SHA256(secret, timestamp + "." + body))`. -/
def signWebhookPayload (body secret : Str) (now : Nat) : SignedPayload :=
  let timestamp := natToStrBytes (now / 1000)
  { signature := strBytes "sha256=" ++ hexOfBytes (hmacSHA256 secret (timestamp ++ dotByte ++ body))
    timestamp := timestamp }

/-- A headers record binding exactly the two protocol headers. -/
def mkHeaders (sig ts : Str) : Headers := fun n =>
  if n = sigHeaderName then .str sig
  else if n = tsHeaderName then .str ts
  else .und

/-- Pointwise update of a headers record (JS property assignment). -/
def updateH (h : Headers) (name : Str) (v : HVal) : Headers := fun n =>
  if n = name then v else h n

-- ── Tool construction (src/defineTool.ts) ──────────────────────────────

/-- Test of the tool-name pattern, `TOOL_NAME_REGEX` in the source, on ASCII bytes. -/
def toolNameOk (name : Str) : Bool :=
  match name with
  | [] => false
  | c :: rest =>
      (97 ≤ c && c ≤ 122) &&
      rest.all fun d => (97 ≤ d && d ≤ 122) || (48 ≤ d && d ≤ 57) || d = 95

/-- JavaScript `String.prototype.trim` (ASCII whitespace fragment). -/
def jsTrim (s : Str) : Str :=
  ((s.dropWhile jsIsWs).reverse.dropWhile jsIsWs).reverse

/-- Construction-time failures of `defineTool`. -/
inductive DefineToolErr where
  | invalidName
  | nameTooLong
  | emptyDescription
  | descriptionTooLong
deriving DecidableEq

/-- The name/description part of a `defineTool` configuration; the schema
and execute function are opaque to construction-time validation. -/
structure ToolConfig where
  name : Str
  description : Str
  env : Option (List Str)

/-- A validated tool record as returned by `defineTool` (the opaque
`parameters`/`execute` fields pass through unchanged and are omitted
here; `_brand` is the literal tag). -/
structure ToolRecord where
  name : Str
  description : Str
  env : List Str

/-- Function `defineTool` from `src/defineTool.ts`: validates the name against
`TOOL_NAME_REGEX`, then the 64-character bound, then that the trimmed
description is non-empty (JS `!s` on the trimmed string) and at most
1024 characters; `env` defaults to `[]`. -/
def defineTool (config : ToolConfig) : Except DefineToolErr ToolRecord :=
  if ¬ toolNameOk config.name then .error .invalidName
  else if config.name.length > 64 then .error .nameTooLong
  else if jsTrim config.description = [] then .error .emptyDescription
  else if config.description.length > 1024 then .error .descriptionTooLong
  else .ok { name := config.name, description := config.description
             env := config.env.getD [] }


-- ── Request handler (src/webhook.ts, createToolHandler) ────────────────

/-- Outcome of the abstract zod `safeParse` capability. -/
inductive SafeParseResult (V I : Type) where
  | success (data : V)
  | failure (issues : List I)

/-- A thrown or rejected JavaScript value: either an `Error` object with
a message, or anything else. -/
inductive JsError where
  | errorObj (msg : Str)
  | nonError

/-- Message extraction in the handler's catch:
`err instanceof Error ? err.message : 'Tool execution failed'`. -/
def JsError.toMessage : JsError → Str
  | .errorObj m => m
  | .nonError => strBytes "Tool execution failed"

/-- Outcome of awaiting the tool's `execute` promise. -/
inductive ExecResult (R : Type) where
  | ok (r : R)
  | thrown (e : JsError)

/-- Execution context handed to `execute`: the spread of the payload's
`context` (opaque here), the resolved `env` record (a finite map,
modelled extensionally), and the tagged logger closure (represented by
the fixed prefix string it prepends). -/
structure ToolContext (B : Type) where
  base : B
  env : Str → Option Str
  logTag : Str

/-- A tool as consumed by the handler (`FoTool` in `src/types.ts`):
`parameters` is the schema's `safeParse`, `execute` the author's body;
both are abstract capabilities. -/
structure FoTool (P V R B I : Type) where
  name : Str
  description : Str
  parameters : P → SafeParseResult V I
  env : List Str
  execute : V → ToolContext B → ExecResult R

/-- Parsed webhook envelope (`WebhookPayload` in `src/types.ts`); the
raw `params` value and the caller-supplied context are opaque. -/
structure WebhookPayload (P B : Type) where
  tool : Str
  params : P
  context : B
  agentId : Str
  requestId : Str
  timestamp : Int

/-- An inbound request as the handler sees it: a method, a headers
record, and the result of reading the body stream (`readBody` either
resolves with the full body or rejects). -/
structure HttpRequest where
  method : Str
  headers : Headers
  body : Except Unit Str

/-- A JSON response body as built by the handler's `sendJson` calls. -/
inductive RespBody (R I : Type) where
  | errorOnly (msg : Str)
  | errorDetails (msg : Str) (issues : List I)
  | successBody (result : R)
  | failureBody (msg : Str)

/-- Outcome of `JSON.parse` on the raw body, as the handler consumes it.
`JSON.parse` can throw (caught by the handler), return the value `null`
(on which the unguarded `payload.params` property access then throws a
TypeError), or return any other JSON value, whose fields — possibly
`undefined` for non-objects or missing keys — are absorbed by the
abstract envelope field types. -/
inductive JsonOutcome (P B : Type) where
  | parseError
  | jsNull
  | value (payload : WebhookPayload P B)

/-- Trace of one handler run: every `sendJson` call (status and body, in
order), the invocation of `execute`, when it happened, with the exact
arguments it received, and whether an exception escaped the handler
(its promise rejected with no response sent). -/
structure HandlerOutcome (V R B I : Type) where
  sends : List (Nat × RespBody R I)
  call : Option (V × ToolContext B)
  uncaught : Bool

/-- One step of the env-resolution loop:
`const val = process.env[key]; if (val !== undefined) env[key] = val`. -/
def envStep (ambient : Str → Option Str) (acc : Str → Option Str) (k : Str) :
    Str → Option Str :=
  match ambient k with
  | some v => fun n => if n = k then some v else acc n
  | none => acc

/-- Resolution of the declared env names against the ambient environment
(the `for (const key of tool.env)` loop building the `env` object). -/
def resolveEnv (declared : List Str) (ambient : Str → Option Str) : Str → Option Str :=
  declared.foldl (envStep ambient) fun _ => none

/-- Execution context as the handler builds it for one payload:
`{...payload.context, env, log}`. -/
def handlerContext {P V R B I : Type} (tool : FoTool P V R B I)
    (ambient : Str → Option Str) (payload : WebhookPayload P B) : ToolContext B :=
  { base := payload.context
    env := resolveEnv tool.env ambient
    logTag := strBytes "[fo:tool:" ++ tool.name ++ strBytes "] ["
              ++ payload.requestId ++ strBytes "] " }

/-- Function `createToolHandler(tool, options)` from `src/webhook.ts`,
as the returned request handler.  The ambient collaborators are explicit
parameters: `ambient` is `process.env`, `jsonParse` is `JSON.parse`
specialised to the envelope shape (three outcomes: a parse exception, the
value `null`, or any other value), and `now` is `Date.now()`.  The result
records every `sendJson` call and the `execute` invocation, if any.  When
`JSON.parse` returns `null`, the source's `tool.parameters.safeParse(payload.params)`
sits outside every try/catch, so the property access throws an uncaught
TypeError: no response is sent and `uncaught` is set.  The source's other
re-throw (a non-`WebhookVerificationError` escaping `verifyWebhook`) is
unreachable, since `verifyWebhook` only throws that error class. -/
def createToolHandler {P V R B I : Type} (tool : FoTool P V R B I) (secret : Str)
    (ambient : Str → Option Str) (jsonParse : Str → JsonOutcome P B)
    (now : Nat) (req : HttpRequest) : HandlerOutcome V R B I :=
  if req.method ≠ strBytes "POST" then
    { sends := [(405, .errorOnly (strBytes "Method not allowed"))], call := none
      uncaught := false }
  else
    match req.body with
    | .error _ =>
        { sends := [(400, .errorOnly (strBytes "Failed to read request body"))], call := none
          uncaught := false }
    | .ok rawBody =>
      match verifyWebhook rawBody req.headers secret now with
      | .error e => { sends := [(401, .errorOnly e.message)], call := none, uncaught := false }
      | .ok _ =>
        match jsonParse rawBody with
        | .parseError =>
            { sends := [(400, .errorOnly (strBytes "Invalid JSON body"))], call := none
              uncaught := false }
        | .jsNull => { sends := [], call := none, uncaught := true }
        | .value payload =>
          match tool.parameters payload.params with
          | .failure issues =>
              { sends := [(422, .errorDetails (strBytes "Invalid tool parameters") issues)]
                call := none, uncaught := false }
          | .success validated =>
            let context : ToolContext B := handlerContext tool ambient payload
            match tool.execute validated context with
            | .ok result =>
                { sends := [(200, .successBody result)], call := some (validated, context)
                  uncaught := false }
            | .thrown e =>
                { sends := [(500, .failureBody e.toMessage)], call := some (validated, context)
                  uncaught := false }

/-- Acceptance test for `defineTool` results. -/
def isAccepted (r : Except DefineToolErr ToolRecord) : Bool :=
  match r with
  | .ok _ => true
  | .error _ => false

/-- Gate conditions that must all have held whenever `execute` was
invoked with a validated value `v`: POST method, a readable body,
successful verification, successful JSON parsing, and `safeParse`
succeeding with exactly `v`. -/
def handlerGates {P V R B I : Type} (tool : FoTool P V R B I) (secret : Str)
    (jsonParse : Str → JsonOutcome P B) (now : Nat)
    (req : HttpRequest) (v : V) : Prop :=
  req.method = strBytes "POST" ∧
  match req.body with
  | .error _ => False
  | .ok rawBody =>
    verifyWebhook rawBody req.headers secret now = .ok () ∧
    match jsonParse rawBody with
    | .parseError => False
    | .jsNull => False
    | .value payload => tool.parameters payload.params = .success v

-- ── Decimal-string round-trip lemmas ───────────────────────────────────

/-- Little-endian valuation of a digit list. -/
def valLE : List Nat → Nat
  | [] => 0
  | d :: ds => d + 10 * valLE ds

theorem natDigitsF_val : ∀ fuel n : Nat, n ≤ fuel → valLE (natDigitsF fuel n) = n := by
  intro fuel
  induction fuel with
  | zero =>
      intro n h
      have hn : n = 0 := Nat.le_zero.mp h
      subst hn
      simp [natDigitsF, valLE]
  | succ fuel ih =>
      intro n h
      by_cases hn : n = 0
      · subst hn
        simp [natDigitsF, valLE]
      · have hdiv : n / 10 ≤ fuel := by omega
        simp only [natDigitsF, hn, if_false, valLE]
        rw [ih (n / 10) hdiv]
        omega

theorem natDigitsF_lt10 : ∀ fuel n d : Nat, d ∈ natDigitsF fuel n → d < 10 := by
  intro fuel
  induction fuel with
  | zero => intro n d h; simp [natDigitsF] at h
  | succ fuel ih =>
      intro n d h
      by_cases hn : n = 0
      · subst hn; simp [natDigitsF] at h
      · simp only [natDigitsF, hn, if_false, List.mem_cons] at h
        rcases h with h | h
        · subst h; omega
        · exact ih _ _ h

theorem natDigitsRev_val (n : Nat) : valLE (natDigitsRev n) = n :=
  natDigitsF_val n n le_rfl

theorem natDigitsRev_ne_nil (n : Nat) (h : n ≠ 0) : natDigitsRev n ≠ [] := by
  intro hnil
  apply h
  have := natDigitsRev_val n
  rw [hnil] at this
  simpa [valLE] using this.symm

theorem natToStrBytes_ne_nil (n : Nat) : natToStrBytes n ≠ [] := by
  unfold natToStrBytes
  by_cases hn : n = 0
  · simp [hn]
  · simp only [hn, if_false]
    intro h
    exact natDigitsRev_ne_nil n hn (by simpa using h)

theorem natToStrBytes_digits (n : Nat) : ∀ b ∈ natToStrBytes n, 48 ≤ b ∧ b ≤ 57 := by
  intro b hb
  unfold natToStrBytes at hb
  by_cases hn : n = 0
  · simp [hn] at hb
    omega
  · simp only [hn, if_false, List.mem_map, List.mem_reverse] at hb
    obtain ⟨d, hd, rfl⟩ := hb
    have := natDigitsF_lt10 n n d hd
    omega

theorem digitsVal_rev_map48 (l : List Nat) :
    digitsVal (l.reverse.map (· + 48)) = valLE l := by
  unfold digitsVal
  rw [List.map_reverse, List.foldl_reverse, List.foldr_map]
  induction l with
  | nil => simp [valLE]
  | cons d ds ih =>
      simp only [List.foldr_cons, valLE, ih]
      omega

theorem takeWhile_eq_self {p : Nat → Bool} :
    ∀ l : List Nat, (∀ x ∈ l, p x = true) → l.takeWhile p = l := by
  intro l h
  induction l with
  | nil => rfl
  | cons a tl ih =>
      rw [List.takeWhile_cons, h a (List.mem_cons_self a tl)]
      simp only [if_true]
      rw [ih fun x hx => h x (List.mem_cons_of_mem a hx)]

theorem parseIntJS_natToStr (n : Nat) : parseIntJS (natToStrBytes n) = some (n : Int) := by
  obtain ⟨b, tl, hbs⟩ := List.exists_cons_of_ne_nil (natToStrBytes_ne_nil n)
  have hdig := natToStrBytes_digits n
  have hb : 48 ≤ b ∧ b ≤ 57 := hdig b (by rw [hbs]; exact List.mem_cons_self b tl)
  have hdrop : (natToStrBytes n).dropWhile jsIsWs = natToStrBytes n := by
    rw [hbs, List.dropWhile_cons]
    have : jsIsWs b = false := by simp [jsIsWs]; omega
    simp [this]
  have hhead : (natToStrBytes n).headD 0 = b := by rw [hbs]; rfl
  have htake : (natToStrBytes n).takeWhile isDigitByte = natToStrBytes n :=
    takeWhile_eq_self _ fun x hx => by
      have := hdig x hx
      simp [isDigitByte]
      omega
  have hval : digitsVal (natToStrBytes n) = n := by
    unfold natToStrBytes
    by_cases hn : n = 0
    · simp [hn, digitsVal]
    · simp only [hn, if_false]
      rw [digitsVal_rev_map48, natDigitsRev_val]
  unfold parseIntJS
  simp only [hdrop, hhead]
  rw [if_neg (by omega : ¬ (b = 45 ∨ b = 43))]
  rw [htake]
  have hemp : (natToStrBytes n).isEmpty = false := by rw [hbs]; rfl
  rw [hemp]
  rw [if_neg (by simp : ¬ (false = true))]
  rw [if_neg (by omega : ¬ b = 45)]
  simp [hval]

-- ── Gate lemmas for verifyWebhook ──────────────────────────────────────

theorem getHeader_mkHeaders_sig (s t : Str) :
    getHeader (mkHeaders s t) sigHeaderName = some s := by
  simp [getHeader, mkHeaders]

theorem getHeader_mkHeaders_ts (s t : Str) :
    getHeader (mkHeaders s t) tsHeaderName = some t := by
  have hne : tsHeaderName ≠ sigHeaderName := by decide
  simp [getHeader, mkHeaders, hne]

theorem sig_format_ne_nil (x : Str) : strBytes "sha256=" ++ x ≠ [] := by
  intro h
  exact absurd (List.append_eq_nil.mp h).1 (by decide)

theorem verify_unfold (body secret : Str) (now : Nat) (h : Headers) (sig tsStr : Str)
    (hsig : getHeader h sigHeaderName = some sig) (hsige : sig ≠ [])
    (hts : getHeader h tsHeaderName = some tsStr) (htse : tsStr ≠ []) :
    verifyWebhook body h secret now =
      match parseIntJS tsStr with
      | none => .error .invalidTimestamp
      | some ts =>
        if (now : Int) - ts * 1000 > TIMESTAMP_TOLERANCE_MS ∨
            (now : Int) - ts * 1000 < -60000 then
          .error .staleOrFuture
        else
          if (strBytes "sha256=" ++ hexOfBytes (hmacSHA256 secret (tsStr ++ dotByte ++ body))).length
              ≠ sig.length ∨
             ¬ timingSafeEqual
                (strBytes "sha256=" ++ hexOfBytes (hmacSHA256 secret (tsStr ++ dotByte ++ body)))
                sig then
            .error .invalidSignature
          else .ok () := by
  unfold verifyWebhook
  rw [hsig, hts]
  simp only [if_neg hsige, if_neg htse]

theorem age_in_window (now : Nat) :
    ¬ ((now : Int) - ((now / 1000 : Nat) : Int) * 1000 > TIMESTAMP_TOLERANCE_MS ∨
       (now : Int) - ((now / 1000 : Nat) : Int) * 1000 < -60000) := by
  have h := Nat.div_add_mod now 1000
  have h2 : now % 1000 < 1000 := Nat.mod_lt _ (by omega)
  unfold TIMESTAMP_TOLERANCE_MS
  omega

/-- C1: for every body string B and secret string S, signing B with S and
then calling `verifyWebhook` on B with the produced signature and
timestamp headers, at the same clock reading, succeeds. -/
theorem verify_sign_roundtrip (body secret : Str) (now : Nat) :
    verifyWebhook body
      (mkHeaders (signWebhookPayload body secret now).signature
                 (signWebhookPayload body secret now).timestamp)
      secret now = .ok () := by
  have hs : (signWebhookPayload body secret now).signature =
      strBytes "sha256=" ++ hexOfBytes (hmacSHA256 secret (natToStrBytes (now / 1000) ++ dotByte ++ body)) := rfl
  have ht : (signWebhookPayload body secret now).timestamp = natToStrBytes (now / 1000) := rfl
  rw [hs, ht]
  rw [verify_unfold body secret now _ _ _
    (getHeader_mkHeaders_sig _ _) (sig_format_ne_nil _)
    (getHeader_mkHeaders_ts _ _) (natToStrBytes_ne_nil _)]
  show (match parseIntJS (natToStrBytes (now / 1000)) with
    | none => _
    | some ts => _) = _
  rw [parseIntJS_natToStr]
  simp only
  rw [if_neg (age_in_window now)]
  rw [if_neg (by simp [timingSafeEqual])]

/-- C2: mutating a single byte of the body invalidates the original
signature, provided the two HMAC digests differ (collision-freeness of
the MAC at this pair of messages, an assumption the code inherits from
SHA-256; the witness below exhibits a concrete instance by evaluation).
The failure cause is `InvalidSignature`. -/
theorem verify_tampered_body_fails (B secret : Str) (now : Nat) (i b' : Nat)
    (hi : i < B.length) (hb : b' ≠ B.getD i 0)
    (hcoll : hexOfBytes (hmacSHA256 secret (natToStrBytes (now / 1000) ++ dotByte ++ B.set i b'))
           ≠ hexOfBytes (hmacSHA256 secret (natToStrBytes (now / 1000) ++ dotByte ++ B))) :
    verifyWebhook (B.set i b')
      (mkHeaders (signWebhookPayload B secret now).signature
                 (signWebhookPayload B secret now).timestamp)
      secret now = .error .invalidSignature := by
  have hs : (signWebhookPayload B secret now).signature =
      strBytes "sha256=" ++ hexOfBytes (hmacSHA256 secret (natToStrBytes (now / 1000) ++ dotByte ++ B)) := rfl
  have ht : (signWebhookPayload B secret now).timestamp = natToStrBytes (now / 1000) := rfl
  rw [hs, ht]
  rw [verify_unfold (B.set i b') secret now _ _ _
    (getHeader_mkHeaders_sig _ _) (sig_format_ne_nil _)
    (getHeader_mkHeaders_ts _ _) (natToStrBytes_ne_nil _)]
  rw [parseIntJS_natToStr]
  simp only
  rw [if_neg (age_in_window now)]
  rw [if_pos]
  refine Or.inr ?_
  simp only [timingSafeEqual, beq_iff_eq]
  intro heq
  exact hcoll (List.append_cancel_left heq)

/-- C3: with both headers present (truthy, as the code checks) and an
integer-parsing timestamp, verification fails with
`StaleOrFutureTimestamp` exactly when the age is over five minutes or
under minus sixty seconds. -/
theorem verify_stale_iff (body secret : Str) (now : Nat) (h : Headers)
    (sig tsStr : Str) (ts : Int)
    (hsig : getHeader h sigHeaderName = some sig) (hsige : sig ≠ [])
    (hts : getHeader h tsHeaderName = some tsStr) (htse : tsStr ≠ [])
    (hparse : parseIntJS tsStr = some ts) :
    (verifyWebhook body h secret now = .error .staleOrFuture) ↔
      ((now : Int) - ts * 1000 > 300000 ∨ (now : Int) - ts * 1000 < -60000) := by
  rw [verify_unfold body secret now h sig tsStr hsig hsige hts htse, hparse]
  simp only
  by_cases hage : ((now : Int) - ts * 1000 > TIMESTAMP_TOLERANCE_MS ∨
      (now : Int) - ts * 1000 < -60000)
  · rw [if_pos hage]
    exact iff_of_true rfl (by simpa [TIMESTAMP_TOLERANCE_MS] using hage)
  · rw [if_neg hage]
    refine iff_of_false ?_ (by simpa [TIMESTAMP_TOLERANCE_MS] using hage)
    split
    · simp
    · simp

/-- C3 witness: a concrete stale call (timestamp 1, clock far ahead). -/
theorem verify_stale_iff_witness :
    getHeader (mkHeaders (strBytes "x") (strBytes "1")) sigHeaderName = some (strBytes "x") ∧
    strBytes "x" ≠ [] ∧
    getHeader (mkHeaders (strBytes "x") (strBytes "1")) tsHeaderName = some (strBytes "1") ∧
    strBytes "1" ≠ [] ∧
    parseIntJS (strBytes "1") = some 1 ∧
    ((verifyWebhook [] (mkHeaders (strBytes "x") (strBytes "1")) [] 600000000 =
        .error .staleOrFuture) ↔
      ((600000000 : Int) - 1 * 1000 > 300000 ∨ (600000000 : Int) - 1 * 1000 < -60000)) :=
  ⟨by decide, by decide, by decide, by decide, by decide,
   verify_stale_iff [] [] 600000000 (mkHeaders (strBytes "x") (strBytes "1"))
     (strBytes "x") (strBytes "1") 1
     (by decide) (by decide) (by decide) (by decide) (by decide)⟩

/-- C8 counterexample: the header string "123abc" does not fail with
`InvalidTimestamp`; JS `parseInt` reads the digit prefix 123 and the
call proceeds to the age check (failing there with `StaleOrFutureTimestamp`
at this clock reading). -/
theorem invalidTimestamp_suffix_counterexample :
    verifyWebhook [] (mkHeaders (strBytes "x") (strBytes "123abc")) [] 600000000 =
      .error .staleOrFuture ∧
    (Except.error VerifyErr.staleOrFuture : Except VerifyErr Unit) ≠
      .error .invalidTimestamp := by
  constructor
  · decide
  · decide

/-- C8 (amended): with both headers present (truthy), verification fails
with `InvalidTimestamp` exactly when JS `parseInt(header, 10)` yields
`NaN`, i.e. when the header has no leading integer after optional
whitespace and sign; a header with a digit prefix such as "123abc"
parses to the prefix value and proceeds to the age and signature
checks. -/
theorem verify_invalidTimestamp_iff (body secret : Str) (now : Nat) (h : Headers)
    (sig tsStr : Str)
    (hsig : getHeader h sigHeaderName = some sig) (hsige : sig ≠ [])
    (hts : getHeader h tsHeaderName = some tsStr) (htse : tsStr ≠ []) :
    (verifyWebhook body h secret now = .error .invalidTimestamp) ↔
      parseIntJS tsStr = none := by
  rw [verify_unfold body secret now h sig tsStr hsig hsige hts htse]
  cases hp : parseIntJS tsStr with
  | none => simp
  | some ts =>
      simp only
      constructor
      · intro hcontr
        split at hcontr
        · simp at hcontr
        · split at hcontr <;> simp at hcontr
      · intro hcontr
        simp at hcontr

/-- C8 amended-claim witness: a header with no digits at all is the
`InvalidTimestamp` case. -/
theorem verify_invalidTimestamp_iff_witness :
    getHeader (mkHeaders (strBytes "x") (strBytes "abc")) sigHeaderName = some (strBytes "x") ∧
    strBytes "x" ≠ [] ∧
    getHeader (mkHeaders (strBytes "x") (strBytes "abc")) tsHeaderName = some (strBytes "abc") ∧
    strBytes "abc" ≠ [] ∧
    ((verifyWebhook [] (mkHeaders (strBytes "x") (strBytes "abc")) [] 0 =
        .error .invalidTimestamp) ↔ parseIntJS (strBytes "abc") = none) :=
  ⟨by decide, by decide, by decide, by decide,
   verify_invalidTimestamp_iff [] [] 0 (mkHeaders (strBytes "x") (strBytes "abc"))
     (strBytes "x") (strBytes "abc")
     (by decide) (by decide) (by decide) (by decide)⟩

/-- C9: given a valid description (non-blank after trimming, at most
1024 characters), `defineTool` accepts a configuration exactly when the
name matches the tool-name pattern and is at most 64 characters long. -/
theorem defineTool_name_acceptance (name desc : Str) (envOpt : Option (List Str))
    (hdesc1 : jsTrim desc ≠ []) (hdesc2 : desc.length ≤ 1024) :
    (isAccepted (defineTool { name := name, description := desc, env := envOpt }) = true) ↔
      (toolNameOk name = true ∧ name.length ≤ 64) := by
  unfold defineTool
  dsimp only
  by_cases h1 : toolNameOk name = true
  · by_cases h2 : name.length > 64
    · rw [if_neg (by simp [h1]), if_pos h2]
      simp [isAccepted, h1]
      omega
    · rw [if_neg (by simp [h1]), if_neg h2, if_neg hdesc1, if_neg (by omega)]
      simp [isAccepted, h1]
      omega
  · rw [if_pos h1]
    simp [isAccepted, h1]

/-- C9 witness: the name "query_crm" with a valid description is
accepted; the spec's rejected examples are checked alongside by
evaluation. -/
theorem defineTool_name_acceptance_witness :
    jsTrim (strBytes "Does something") ≠ [] ∧
    (strBytes "Does something").length ≤ 1024 ∧
    ((isAccepted (defineTool { name := strBytes "query_crm", description := strBytes "Does something", env := none }) = true) ↔
      (toolNameOk (strBytes "query_crm") = true ∧ (strBytes "query_crm").length ≤ 64)) ∧
    isAccepted (defineTool { name := strBytes "Query_CRM", description := strBytes "Does something", env := none }) = false ∧
    isAccepted (defineTool { name := strBytes "1abc", description := strBytes "Does something", env := none }) = false ∧
    isAccepted (defineTool { name := strBytes "has-hyphen", description := strBytes "Does something", env := none }) = false ∧
    isAccepted (defineTool { name := List.replicate 65 97, description := strBytes "Does something", env := none }) = false :=
  ⟨by decide, by decide,
   defineTool_name_acceptance (strBytes "query_crm") (strBytes "Does something") none
     (by decide) (by decide),
   by decide, by decide, by decide, by decide⟩

-- ── C10: array-valued headers ──────────────────────────────────────────

theorem getHeader_updateH (h : Headers) (name q : Str) (v : HVal) :
    getHeader (updateH h name v) q =
      if q = name then
        (match v with
         | HVal.und => none
         | HVal.str s => some s
         | HVal.arr l => l.head?)
      else getHeader h q := by
  unfold getHeader updateH
  by_cases hq : q = name
  · rw [if_pos hq, if_pos hq]
  · rw [if_neg hq, if_neg hq]

theorem verify_congr (body secret : Str) (now : Nat) (h1 h2 : Headers)
    (hs : getHeader h1 sigHeaderName = getHeader h2 sigHeaderName)
    (ht : getHeader h1 tsHeaderName = getHeader h2 tsHeaderName) :
    verifyWebhook body h1 secret now = verifyWebhook body h2 secret now := by
  unfold verifyWebhook
  rw [hs, ht]

/-- C10: a header bound to a non-empty array behaves exactly as if bound
to the array's first element, and an empty array behaves as a missing
header — in particular an empty-array signature header fails with the
missing-header cause. -/
theorem verify_array_headers (h : Headers) (body secret : Str) (now : Nat)
    (name s : Str) (l : List Str) :
    (verifyWebhook body (updateH h name (.arr (s :: l))) secret now =
      verifyWebhook body (updateH h name (.str s)) secret now) ∧
    (verifyWebhook body (updateH h name (.arr [])) secret now =
      verifyWebhook body (updateH h name .und) secret now) ∧
    (verifyWebhook body (updateH h sigHeaderName (.arr [])) secret now =
      .error .missingSignature) := by
  refine ⟨verify_congr _ _ _ _ _ (by simp [getHeader_updateH]) (by simp [getHeader_updateH]),
         verify_congr _ _ _ _ _ (by simp [getHeader_updateH]) (by simp [getHeader_updateH]),
         ?_⟩
  have hnone : getHeader (updateH h sigHeaderName (.arr [])) sigHeaderName = none := by
    simp [getHeader_updateH]
  unfold verifyWebhook
  rw [hnone]

-- ── Environment resolution characterisation ────────────────────────────

theorem resolveEnv_foldl (ambient : Str → Option Str) :
    ∀ (d : List Str) (R : Str → Prop) (acc : Str → Option Str),
      (∀ k v, acc k = some v ↔ R k ∧ ambient k = some v) →
      ∀ k v, (d.foldl (envStep ambient) acc) k = some v ↔
        (R k ∨ k ∈ d) ∧ ambient k = some v := by
  intro d
  induction d with
  | nil =>
      intro R acc hacc k v
      simp only [List.foldl_nil, List.not_mem_nil, or_false]
      exact hacc k v
  | cons k0 rest ih =>
      intro R acc hacc k v
      simp only [List.foldl_cons]
      have hstep : ∀ k1 v1, envStep ambient acc k0 k1 = some v1 ↔
          (R k1 ∨ k1 = k0) ∧ ambient k1 = some v1 := by
        intro k1 v1
        unfold envStep
        cases hamb : ambient k0 with
        | none =>
            rw [hacc k1 v1]
            constructor
            · rintro ⟨hR, hv⟩
              exact ⟨Or.inl hR, hv⟩
            · rintro ⟨hRk, hv⟩
              rcases hRk with hR | hk
              · exact ⟨hR, hv⟩
              · subst hk
                rw [hamb] at hv
                cases hv
        | some v0 =>
            dsimp only
            by_cases hk : k1 = k0
            · subst hk
              rw [if_pos rfl]
              simp only [Option.some.injEq]
              constructor
              · intro hv
                subst hv
                refine ⟨Or.inr ?_, hamb⟩
                trivial
              · rintro ⟨_, hv⟩
                rw [hamb] at hv
                exact (Option.some.injEq _ _).mp hv.symm |>.symm
            · rw [if_neg hk]
              rw [hacc k1 v1]
              constructor
              · rintro ⟨hR, hv⟩
                exact ⟨Or.inl hR, hv⟩
              · rintro ⟨hRk, hv⟩
                rcases hRk with hR | hkk
                · exact ⟨hR, hv⟩
                · exact absurd hkk hk
      rw [ih (fun k1 => R k1 ∨ k1 = k0) (envStep ambient acc k0) hstep k v]
      simp only [List.mem_cons]
      tauto

theorem resolveEnv_spec (declared : List Str) (ambient : Str → Option Str) (k v : Str) :
    resolveEnv declared ambient k = some v ↔ k ∈ declared ∧ ambient k = some v := by
  unfold resolveEnv
  rw [resolveEnv_foldl ambient declared (fun _ => False) _ (by intro k1 v1; simp) k v]
  simp

/-- C4: `execute` is invoked only after signature verification, JSON
parsing and `safeParse` all succeeded, and only with the validated value
`safeParse` produced; on any failure it is never invoked. -/
theorem execute_only_validated {P V R B I : Type} (tool : FoTool P V R B I)
    (secret : Str) (ambient : Str → Option Str)
    (jsonParse : Str → JsonOutcome P B) (now : Nat)
    (req : HttpRequest) (v : V) (ctx : ToolContext B)
    (hcall : (createToolHandler tool secret ambient jsonParse now req).call = some (v, ctx)) :
    handlerGates tool secret jsonParse now req v := by
  unfold createToolHandler at hcall
  unfold handlerGates
  split at hcall
  · simp at hcall
  next hm =>
    refine ⟨not_not.mp (by simpa using hm), ?_⟩
    split at hcall
    · simp at hcall
    next rawBody heq =>
      split at hcall
      · simp at hcall
      next u hv =>
        cases u
        refine ⟨hv, ?_⟩
        split at hcall
        · simp at hcall
        · simp at hcall
        next payload hj =>
          split at hcall
          · simp at hcall
          next v' hp =>
            dsimp only at hcall
            split at hcall <;>
              · simp only [Option.some.injEq, Prod.mk.injEq] at hcall
                rw [hp, hcall.1]

/-- C5: in the context passed to `execute`, the env mapping binds exactly
the tool's declared names that are set in the ambient environment, each
to its ambient value, and nothing else. -/
theorem execute_env_least_privilege {P V R B I : Type} (tool : FoTool P V R B I)
    (secret : Str) (ambient : Str → Option Str)
    (jsonParse : Str → JsonOutcome P B) (now : Nat)
    (req : HttpRequest) (v : V) (ctx : ToolContext B)
    (hcall : (createToolHandler tool secret ambient jsonParse now req).call = some (v, ctx)) :
    ∀ k val, ctx.env k = some val ↔ (k ∈ tool.env ∧ ambient k = some val) := by
  unfold createToolHandler at hcall
  split at hcall
  · simp at hcall
  next hm =>
    split at hcall
    · simp at hcall
    next rawBody heq =>
      split at hcall
      · simp at hcall
      next u hv =>
        split at hcall
        · simp at hcall
        · simp at hcall
        next payload hj =>
          split at hcall
          · simp at hcall
          next v' hp =>
            dsimp only at hcall
            split at hcall <;>
              · simp only [Option.some.injEq, Prod.mk.injEq] at hcall
                rw [← hcall.2]
                intro k val
                exact resolveEnv_spec tool.env ambient k val

/-- C6: the response status and body shape are exactly determined by the
outcome: 405 non-POST, 400 body-read failure, 401 verification failure
(carrying the error message), 400 JSON-parse failure, 422 validation
failure (carrying the issue list), 200 with the success shape on
successful execution, 500 with the failure shape when `execute` throws
or rejects. -/
theorem response_status_mapping {P V R B I : Type} (tool : FoTool P V R B I)
    (secret : Str) (ambient : Str → Option Str)
    (jsonParse : Str → JsonOutcome P B) (now : Nat) (req : HttpRequest) :
    (req.method ≠ strBytes "POST" →
      (createToolHandler tool secret ambient jsonParse now req).sends =
        [(405, .errorOnly (strBytes "Method not allowed"))]) ∧
    (∀ e : Unit, req.method = strBytes "POST" → req.body = .error e →
      (createToolHandler tool secret ambient jsonParse now req).sends =
        [(400, .errorOnly (strBytes "Failed to read request body"))]) ∧
    (∀ rawBody err, req.method = strBytes "POST" → req.body = .ok rawBody →
      verifyWebhook rawBody req.headers secret now = .error err →
      (createToolHandler tool secret ambient jsonParse now req).sends =
        [(401, .errorOnly err.message)]) ∧
    (∀ rawBody, req.method = strBytes "POST" → req.body = .ok rawBody →
      verifyWebhook rawBody req.headers secret now = .ok () →
      jsonParse rawBody = .parseError →
      (createToolHandler tool secret ambient jsonParse now req).sends =
        [(400, .errorOnly (strBytes "Invalid JSON body"))]) ∧
    (∀ rawBody payload issues, req.method = strBytes "POST" → req.body = .ok rawBody →
      verifyWebhook rawBody req.headers secret now = .ok () →
      jsonParse rawBody = .value payload →
      tool.parameters payload.params = .failure issues →
      (createToolHandler tool secret ambient jsonParse now req).sends =
        [(422, .errorDetails (strBytes "Invalid tool parameters") issues)]) ∧
    (∀ rawBody payload v r, req.method = strBytes "POST" → req.body = .ok rawBody →
      verifyWebhook rawBody req.headers secret now = .ok () →
      jsonParse rawBody = .value payload →
      tool.parameters payload.params = .success v →
      tool.execute v (handlerContext tool ambient payload) = .ok r →
      (createToolHandler tool secret ambient jsonParse now req).sends =
        [(200, .successBody r)]) ∧
    (∀ rawBody payload v e, req.method = strBytes "POST" → req.body = .ok rawBody →
      verifyWebhook rawBody req.headers secret now = .ok () →
      jsonParse rawBody = .value payload →
      tool.parameters payload.params = .success v →
      tool.execute v (handlerContext tool ambient payload) = .thrown e →
      (createToolHandler tool secret ambient jsonParse now req).sends =
        [(500, .failureBody e.toMessage)]) := by
  refine ⟨?_, ?_, ?_, ?_, ?_, ?_, ?_⟩
  · intro hm
    unfold createToolHandler
    rw [if_pos hm]
  · intro e hm hb
    unfold createToolHandler
    rw [if_neg (not_not_intro hm), hb]
  · intro rawBody err hm hb hv
    unfold createToolHandler
    rw [if_neg (not_not_intro hm), hb]
    dsimp only
    rw [hv]
  · intro rawBody hm hb hv hj
    unfold createToolHandler
    rw [if_neg (not_not_intro hm), hb]
    dsimp only
    rw [hv]
    dsimp only
    rw [hj]
  · intro rawBody payload issues hm hb hv hj hp
    unfold createToolHandler
    rw [if_neg (not_not_intro hm), hb]
    dsimp only
    rw [hv]
    dsimp only
    rw [hj]
    dsimp only
    rw [hp]
  · intro rawBody payload v r hm hb hv hj hp he
    unfold createToolHandler
    rw [if_neg (not_not_intro hm), hb]
    dsimp only
    rw [hv]
    dsimp only
    rw [hj]
    dsimp only
    rw [hp]
    dsimp only
    rw [he]
  · intro rawBody payload v e hm hb hv hj hp he
    unfold createToolHandler
    rw [if_neg (not_not_intro hm), hb]
    dsimp only
    rw [hv]
    dsimp only
    rw [hj]
    dsimp only
    rw [hp]
    dsimp only
    rw [he]

-- ── Concrete fixtures for the witnesses ────────────────────────────────

set_option maxRecDepth 100000

/-- Concrete webhook secret for witness instances. -/
def secretW : Str := strBytes "k"

/-- Concrete raw body for witness instances. -/
def bodyW : Str := strBytes "x"

/-- Headers correctly signed over `bodyW` at clock reading 0. -/
def headersW : Headers :=
  mkHeaders (signWebhookPayload bodyW secretW 0).signature
            (signWebhookPayload bodyW secretW 0).timestamp

/-- Ambient environment defining exactly the variable K. -/
def ambW : Str → Option Str :=
  fun n => if n = strBytes "K" then some (strBytes "v") else none

/-- A doubling echo tool that accepts any raw params value. -/
def toolW : FoTool Nat Nat Nat Unit Unit :=
  { name := strBytes "echo_tool"
    description := strBytes "d"
    parameters := fun p => .success p
    env := [strBytes "K"]
    execute := fun v _ => .ok (2 * v) }

/-- A tool whose schema rejects every params value. -/
def toolRejectW : FoTool Nat Nat Nat Unit Unit :=
  { name := strBytes "echo_tool"
    description := strBytes "d"
    parameters := fun _ => .failure [()]
    env := [strBytes "K"]
    execute := fun v _ => .ok v }

/-- A tool whose execute always throws an Error with message "boom". -/
def toolThrowW : FoTool Nat Nat Nat Unit Unit :=
  { name := strBytes "echo_tool"
    description := strBytes "d"
    parameters := fun p => .success p
    env := [strBytes "K"]
    execute := fun _ _ => .thrown (.errorObj (strBytes "boom")) }

/-- Concrete parsed envelope. -/
def payloadW : WebhookPayload Nat Unit :=
  { tool := strBytes "echo_tool"
    params := 21
    context := ()
    agentId := strBytes "a"
    requestId := strBytes "r"
    timestamp := 0 }

/-- A JSON parser that always yields `payloadW`. -/
def jsonParseW : Str → JsonOutcome Nat Unit := fun _ => .value payloadW

/-- A JSON parser that always throws. -/
def jsonParseErrW : Str → JsonOutcome Nat Unit := fun _ => .parseError

/-- The behaviour of `JSON.parse` on the body "null": it succeeds and
returns the value `null`. -/
def jsonParseNullW : Str → JsonOutcome Nat Unit := fun _ => .jsNull

/-- A well-formed POST request over `bodyW` with valid signature headers. -/
def reqPostW : HttpRequest :=
  { method := strBytes "POST", headers := headersW, body := .ok bodyW }

/-- A GET request. -/
def reqGetW : HttpRequest :=
  { method := strBytes "GET", headers := headersW, body := .ok bodyW }

/-- A POST request whose body stream fails. -/
def reqBadBodyW : HttpRequest :=
  { method := strBytes "POST", headers := headersW, body := .error () }

/-- A POST request with empty-string protocol headers. -/
def reqNoSigW : HttpRequest :=
  { method := strBytes "POST", headers := mkHeaders [] [], body := .ok bodyW }

/-- The four-byte raw body "null", whose JSON value is null. -/
def bodyNullW : Str := strBytes "null"

/-- A POST request over the body "null" with valid signature headers. -/
def reqNullW : HttpRequest :=
  { method := strBytes "POST"
    headers := mkHeaders (signWebhookPayload bodyNullW secretW 0).signature
                         (signWebhookPayload bodyNullW secretW 0).timestamp
    body := .ok bodyNullW }

/-- The context the handler builds for `toolW` and `payloadW`. -/
def ctxW : ToolContext Unit := handlerContext toolW ambW payloadW

theorem verify_ok_W : verifyWebhook bodyW headersW secretW 0 = .ok () := by decide

theorem verify_missing_W :
    verifyWebhook bodyW (mkHeaders [] []) secretW 0 = .error .missingSignature := by decide

/-- C7: failing input for the claim that the handler always sends exactly
one response and never raises.  A POST whose raw body is the four bytes
"null", correctly signed, passes verification and `JSON.parse`, and the
unguarded `payload.params` access then throws an uncaught TypeError: the
handler sends no response, never invokes `execute`, and the exception
escapes — the code closes the connection without a response body, against
the claim and the spec's stated propagation policy. -/
theorem handler_null_body_uncaught :
    createToolHandler toolW secretW ambW jsonParseNullW 0 reqNullW =
      { sends := [], call := none, uncaught := true } := rfl

/-- C2 witness: body "a" signed with secret "k" at clock 0, byte 0
mutated to 98 ('b'); the two digests differ by evaluation and
verification fails with `InvalidSignature`. -/
theorem verify_tampered_body_fails_witness :
    0 < (strBytes "a").length ∧
    98 ≠ (strBytes "a").getD 0 0 ∧
    hexOfBytes (hmacSHA256 (strBytes "k")
        (natToStrBytes (0 / 1000) ++ dotByte ++ (strBytes "a").set 0 98)) ≠
      hexOfBytes (hmacSHA256 (strBytes "k")
        (natToStrBytes (0 / 1000) ++ dotByte ++ strBytes "a")) ∧
    verifyWebhook ((strBytes "a").set 0 98)
      (mkHeaders (signWebhookPayload (strBytes "a") (strBytes "k") 0).signature
                 (signWebhookPayload (strBytes "a") (strBytes "k") 0).timestamp)
      (strBytes "k") 0 = .error .invalidSignature :=
  ⟨by decide, by decide, by decide,
   verify_tampered_body_fails (strBytes "a") (strBytes "k") 0 0 98
     (by decide) (by decide) (by decide)⟩

/-- C4 witness: on the signed request, `execute` runs with validated
value 21 and the handler-built context, and all gates held. -/
theorem execute_only_validated_witness :
    (createToolHandler toolW secretW ambW jsonParseW 0 reqPostW).call = some (21, ctxW) ∧
    handlerGates toolW secretW jsonParseW 0 reqPostW 21 :=
  ⟨rfl, execute_only_validated toolW secretW ambW jsonParseW 0 reqPostW 21 ctxW rfl⟩

/-- C5 witness: in the context passed to `execute`, the declared key K is
bound to its ambient value, as the characterisation states. -/
theorem execute_env_least_privilege_witness :
    (createToolHandler toolW secretW ambW jsonParseW 0 reqPostW).call = some (21, ctxW) ∧
    (ctxW.env (strBytes "K") = some (strBytes "v") ↔
      (strBytes "K" ∈ toolW.env ∧ ambW (strBytes "K") = some (strBytes "v"))) :=
  ⟨rfl,
   execute_env_least_privilege toolW secretW ambW jsonParseW 0 reqPostW 21 ctxW rfl
     (strBytes "K") (strBytes "v")⟩

/-- C6 witness: one concrete request per outcome, each status delivered
by the mapping theorem. -/
theorem response_status_mapping_witness :
    (createToolHandler toolW secretW ambW jsonParseW 0 reqGetW).sends =
      [(405, .errorOnly (strBytes "Method not allowed"))] ∧
    (createToolHandler toolW secretW ambW jsonParseW 0 reqBadBodyW).sends =
      [(400, .errorOnly (strBytes "Failed to read request body"))] ∧
    (createToolHandler toolW secretW ambW jsonParseW 0 reqNoSigW).sends =
      [(401, .errorOnly (VerifyErr.missingSignature.message))] ∧
    (createToolHandler toolW secretW ambW jsonParseErrW 0 reqPostW).sends =
      [(400, .errorOnly (strBytes "Invalid JSON body"))] ∧
    (createToolHandler toolRejectW secretW ambW jsonParseW 0 reqPostW).sends =
      [(422, .errorDetails (strBytes "Invalid tool parameters") [()])] ∧
    (createToolHandler toolW secretW ambW jsonParseW 0 reqPostW).sends =
      [(200, .successBody 42)] ∧
    (createToolHandler toolThrowW secretW ambW jsonParseW 0 reqPostW).sends =
      [(500, .failureBody (JsError.errorObj (strBytes "boom")).toMessage)] :=
  ⟨(response_status_mapping toolW secretW ambW jsonParseW 0 reqGetW).1 (by decide),
   (response_status_mapping toolW secretW ambW jsonParseW 0 reqBadBodyW).2.1 () rfl rfl,
   (response_status_mapping toolW secretW ambW jsonParseW 0 reqNoSigW).2.2.1 bodyW
     .missingSignature rfl rfl verify_missing_W,
   (response_status_mapping toolW secretW ambW jsonParseErrW 0 reqPostW).2.2.2.1 bodyW
     rfl rfl verify_ok_W rfl,
   (response_status_mapping toolRejectW secretW ambW jsonParseW 0 reqPostW).2.2.2.2.1 bodyW
     payloadW [()] rfl rfl verify_ok_W rfl rfl,
   (response_status_mapping toolW secretW ambW jsonParseW 0 reqPostW).2.2.2.2.2.1 bodyW
     payloadW 21 42 rfl rfl verify_ok_W rfl rfl rfl,
   (response_status_mapping toolThrowW secretW ambW jsonParseW 0 reqPostW).2.2.2.2.2.2 bodyW
     payloadW 21 (.errorObj (strBytes "boom")) rfl rfl verify_ok_W rfl rfl rfl⟩
